import Mathlib

/-!
Verification of the message-dispatch and data-access core of the cosmi-kit
desktop application.  The definitions below are a shallow embedding of the
Rust sources: `src/app.rs` (dispatch loop), `src/application/app_data.rs`
(data-access service), `src/database/sqlite.rs` (storage engine),
`src/pages/project_manager.rs` and `src/pages/oc_generator.rs` (page state
containers).  UI widget trees, theming and window chrome are out of scope and
are not modelled.
-/

namespace CosmiKit

/-- Execution outcome of a fallible Rust call: `ok` for a success value,
`err` for a recoverable `anyhow`-style error rendered as a string, and
`panic` for an abnormal termination (a `todo!()` placeholder or an
out-of-bounds `Vec::remove`). -/
inductive Outcome (α : Type) where
  | ok (value : α)
  | err (msg : String)
  | panic (msg : String)
deriving DecidableEq

/-- Insert `x` into `l` in front of the first element whose key is strictly
smaller, keeping elements with equal keys in their original order.  Helper
for modelling the SQL `ORDER BY created_at DESC` clauses of
`src/database/sqlite.rs`. -/
def insertDescBy {α : Type} (key : α → Int) (x : α) : List α → List α
  | [] => [x]
  | y :: ys => if key y < key x then x :: y :: ys else y :: insertDescBy key x ys

/-- Sort a list into descending key order (insertion sort); models the SQL
`ORDER BY created_at DESC` result order. -/
def sortDescBy {α : Type} (key : α → Int) : List α → List α
  | [] => []
  | x :: xs => insertDescBy key x (sortDescBy key xs)

theorem perm_insertDescBy {α : Type} (key : α → Int) (x : α) (l : List α) :
    (insertDescBy key x l).Perm (x :: l) := by
  induction l with
  | nil => exact List.Perm.refl _
  | cons y ys ih =>
    by_cases h : key y < key x
    · simp [insertDescBy, h]
    · simp only [insertDescBy, if_neg h]
      exact (ih.cons y).trans (List.Perm.swap x y ys)

theorem perm_sortDescBy {α : Type} (key : α → Int) (l : List α) :
    (sortDescBy key l).Perm l := by
  induction l with
  | nil => exact List.Perm.refl _
  | cons x xs ih =>
    exact (perm_insertDescBy key x (sortDescBy key xs)).trans (ih.cons x)

theorem sorted_insertDescBy {α : Type} (key : α → Int) (x : α) (l : List α)
    (h : l.Pairwise (fun a b => key b ≤ key a)) :
    (insertDescBy key x l).Pairwise (fun a b => key b ≤ key a) := by
  induction l with
  | nil => simp [insertDescBy]
  | cons y ys ih =>
    rcases List.pairwise_cons.mp h with ⟨hy, hys⟩
    by_cases hc : key y < key x
    · simp only [insertDescBy, if_pos hc]
      refine List.pairwise_cons.mpr ⟨?_, h⟩
      intro z hz
      rcases List.mem_cons.mp hz with rfl | hz
      · exact le_of_lt hc
      · exact le_trans (hy z hz) (le_of_lt hc)
    · simp only [insertDescBy, if_neg hc]
      refine List.pairwise_cons.mpr ⟨?_, ih hys⟩
      intro z hz
      have hz' : z ∈ x :: ys := (perm_insertDescBy key x ys).subset hz
      rcases List.mem_cons.mp hz' with rfl | hz'
      · exact not_lt.mp hc
      · exact hy z hz'

theorem sorted_sortDescBy {α : Type} (key : α → Int) (l : List α) :
    (sortDescBy key l).Pairwise (fun a b => key b ≤ key a) := by
  induction l with
  | nil => simp [sortDescBy]
  | cons x xs ih => exact sorted_insertDescBy key x _ ih

theorem insertDescBy_append_of_forall {α : Type} (key : α → Int) (x : α) (l : List α)
    (h : ∀ y ∈ l, ¬ key y < key x) :
    insertDescBy key x l = l ++ [x] := by
  induction l with
  | nil => rfl
  | cons y ys ih =>
    have hy : ¬ key y < key x := h y (List.mem_cons_self y ys)
    simp only [insertDescBy, if_neg hy, List.cons_append]
    rw [ih (fun z hz => h z (List.mem_cons_of_mem y hz))]

theorem sortDescBy_of_pairwise_lt {α : Type} (key : α → Int) (l : List α)
    (h : l.Pairwise (fun a b => key a < key b)) :
    sortDescBy key l = l.reverse := by
  induction l with
  | nil => rfl
  | cons x xs ih =>
    rcases List.pairwise_cons.mp h with ⟨hx, hxs⟩
    simp only [sortDescBy, ih hxs, List.reverse_cons]
    refine insertDescBy_append_of_forall key x xs.reverse ?_
    intro y hy
    have := hx y (List.mem_reverse.mp hy)
    omega

/-- Project row (`src/database/mod.rs`, struct `Project`): store-assigned id,
name, optional description and creation timestamp (seconds since epoch). -/
structure Project where
  id : Int
  name : String
  description : Option String
  created_at : Int
deriving DecidableEq

/-- Tag row (`src/database/mod.rs`, struct `Tag`). -/
structure Tag where
  id : Int
  name : String
  color : Option String
deriving DecidableEq

/-- Feature row (`src/database/mod.rs`, struct `Feature`). -/
structure Feature where
  id : Int
  project_id : Int
  description : String
  completed : Bool
  created_at : Int
deriving DecidableEq

/-- One row of the read-model aggregate returned by `get_all_projects`
(`Vec<(Project, ProjectTags, ProjectFeatures)>` in `src/database/mod.rs`). -/
abbrev JoinRow : Type := Project × List Tag × List Feature

/-- A saved OC artifact (`src/application/app_data.rs`, struct `SavedOC`):
opaque text plus creation timestamp. -/
structure SavedOC where
  text : String
  created_at : Int
deriving DecidableEq

/-- Constructor `SavedOC::new`; the Rust reads `Utc::now().timestamp()`, which
the model receives as the explicit `now` argument. -/
def SavedOC.new (text : String) (now : Int) : SavedOC :=
  { text := text, created_at := now }

/-- State of the backing relational store behind a `SqliteDatabase` handle.
Modelled from the spec: the SQL schema (the `migrations` directory) is not
under `src/`, so table contents, store-assigned row ids and store-assigned
creation timestamps follow spec sections 3 and 4.2: ids are unique integers
generated by the store, `created_at` is a store-assigned seconds-since-epoch
timestamp; the model clock advances by one second per write so timestamps
are monotone.  Cloning the Rust handle shares the pool, so the model treats
the handle and its store state as one value threaded through operations. -/
structure DbState where
  projects : List Project
  tags : List Tag
  projectTags : List (Int × Int)
  features : List Feature
  nextProjectId : Int
  clock : Int
deriving DecidableEq

/-- An empty store whose clock starts at `t` (fresh database file; sqlite row
ids start at 1). -/
def emptyDb (t : Int) : DbState :=
  { projects := [], tags := [], projectTags := [], features := []
    nextProjectId := 1, clock := t }

namespace SqliteDatabase

/-- `SqliteDatabase::create_project`: INSERT the row, then SELECT it back by
`last_insert_rowid()` (`fetch_one` fails with a row-not-found error if the
select returns nothing). -/
def create_project (db : DbState) (name : String) (description : Option String) :
    Outcome (Project × DbState) :=
  let pid := db.nextProjectId
  let row : Project :=
    { id := pid, name := name, description := description, created_at := db.clock }
  let db' : DbState :=
    { db with
        projects := db.projects ++ [row]
        nextProjectId := pid + 1
        clock := db.clock + 1 }
  match db'.projects.find? (fun p => p.id = pid) with
  | some p => .ok (p, db')
  | none => .err "no rows returned by a query that expected to return at least one row"

/-- Tag rows of one project: the `INNER JOIN project_tags` query inside
`get_all_projects`, scanning the tags table in order. -/
def projectTagsOf (db : DbState) (pid : Int) : List Tag :=
  db.tags.filter (fun t => db.projectTags.any (fun pt => pt.1 = pid ∧ pt.2 = t.id))

/-- Feature rows of one project, `ORDER BY created_at DESC`, inside
`get_all_projects`. -/
def projectFeaturesOf (db : DbState) (pid : Int) : List Feature :=
  sortDescBy (fun f => f.created_at)
    (db.features.filter (fun f => f.project_id = pid))

/-- `SqliteDatabase::get_all_projects`: all projects `ORDER BY created_at
DESC`, then per project sequential reads of its tags and features. -/
def get_all_projects (db : DbState) : Outcome (List JoinRow) :=
  .ok ((sortDescBy (fun p => p.created_at) db.projects).map
    (fun p => (p, projectTagsOf db p.id, projectFeaturesOf db p.id)))

/-- `SqliteDatabase::delete_project` is `todo!("Implement delete_project")`:
every call panics. -/
def delete_project (_db : DbState) (_id : Int) : Outcome (Unit × DbState) :=
  .panic "not yet implemented: Implement delete_project"

/-- `SqliteDatabase::create_tag` is a `todo!()` placeholder: every call
panics. -/
def create_tag (_db : DbState) (_name : String) : Outcome (Tag × DbState) :=
  .panic "not yet implemented: Implement create_tag"

/-- `SqliteDatabase::get_all_tags` is a `todo!()` placeholder: every call
panics. -/
def get_all_tags (_db : DbState) : Outcome (List Tag) :=
  .panic "not yet implemented: Implement get_all_tags"

/-- `SqliteDatabase::add_tag_to_project` is a `todo!()` placeholder: every
call panics. -/
def add_tag_to_project (_db : DbState) (_project_id _tag_id : Int) :
    Outcome (Unit × DbState) :=
  .panic "not yet implemented: Implement add_tag_to_project"

/-- `SqliteDatabase::add_feature` is a `todo!()` placeholder: every call
panics. -/
def add_feature (_db : DbState) (_project_id : Int) (_description : String) :
    Outcome (Feature × DbState) :=
  .panic "not yet implemented: Implement add_feature"

/-- `SqliteDatabase::get_project_features` is a `todo!()` placeholder: every
call panics. -/
def get_project_features (_db : DbState) (_project_id : Int) : Outcome (List Feature) :=
  .panic "not yet implemented: Implement get_project_features"

/-- `SqliteDatabase::remove_feature` is a `todo!()` placeholder: every call
panics. -/
def remove_feature (_db : DbState) (_feature_id : Int) : Outcome (Unit × DbState) :=
  .panic "not yet implemented: Implement remove_feature"

end SqliteDatabase

/-- Data-access service (`src/application/app_data.rs`, struct `AppData`):
owns an optional storage handle, absent until initialization completes. -/
structure AppData where
  db : Option DbState
deriving DecidableEq

namespace AppData

/-- `AppData::new`: no database connection yet. -/
def new : AppData := { db := none }

/-- `AppData::set_database`, called after async initialization succeeds. -/
def set_database (a : AppData) (db : DbState) : AppData := { a with db := some db }

/-- `AppData::has_database`. -/
def has_database (a : AppData) : Bool := a.db.isSome

/-- `AppData::load_projects`: delegate to `get_all_projects`, or fail with the
not-initialized error when no handle is installed. -/
def load_projects (a : AppData) : Outcome (List JoinRow) :=
  match a.db with
  | some db => SqliteDatabase.get_all_projects db
  | none => .err "Database not initialized"

/-- `AppData::create_project`: delegate to the engine (mutations return the
updated store state), or fail with the not-initialized error. -/
def create_project (a : AppData) (name : String) (description : Option String) :
    Outcome (Project × AppData) :=
  match a.db with
  | some db =>
    match SqliteDatabase.create_project db name description with
    | .ok (p, db') => .ok (p, { a with db := some db' })
    | .err e => .err e
    | .panic m => .panic m
  | none => .err "Database not initialized"

/-- `AppData::delete_project`. -/
def delete_project (a : AppData) (id : Int) : Outcome (Unit × AppData) :=
  match a.db with
  | some db =>
    match SqliteDatabase.delete_project db id with
    | .ok (u, db') => .ok (u, { a with db := some db' })
    | .err e => .err e
    | .panic m => .panic m
  | none => .err "Database not initialized"

/-- `AppData::create_tag`. -/
def create_tag (a : AppData) (name : String) : Outcome (Tag × AppData) :=
  match a.db with
  | some db =>
    match SqliteDatabase.create_tag db name with
    | .ok (t, db') => .ok (t, { a with db := some db' })
    | .err e => .err e
    | .panic m => .panic m
  | none => .err "Database not initialized"

/-- `AppData::get_all_tags`. -/
def get_all_tags (a : AppData) : Outcome (List Tag) :=
  match a.db with
  | some db => SqliteDatabase.get_all_tags db
  | none => .err "Database not initialized"

/-- `AppData::add_tag_to_project`. -/
def add_tag_to_project (a : AppData) (project_id tag_id : Int) :
    Outcome (Unit × AppData) :=
  match a.db with
  | some db =>
    match SqliteDatabase.add_tag_to_project db project_id tag_id with
    | .ok (u, db') => .ok (u, { a with db := some db' })
    | .err e => .err e
    | .panic m => .panic m
  | none => .err "Database not initialized"

/-- `AppData::add_feature`. -/
def add_feature (a : AppData) (project_id : Int) (description : String) :
    Outcome (Feature × AppData) :=
  match a.db with
  | some db =>
    match SqliteDatabase.add_feature db project_id description with
    | .ok (f, db') => .ok (f, { a with db := some db' })
    | .err e => .err e
    | .panic m => .panic m
  | none => .err "Database not initialized"

/-- `AppData::get_project_features`. -/
def get_project_features (a : AppData) (project_id : Int) : Outcome (List Feature) :=
  match a.db with
  | some db => SqliteDatabase.get_project_features db project_id
  | none => .err "Database not initialized"

end AppData

/-- State of the cosmic-config key-value store used by the OC generator page.
Modelled from the spec: the `cosmic_config` crate itself is not under `src/`;
per spec section 6 it is a key-value persistence mechanism whose
`"characters"` key, when present, holds the whole serialized saved-character
list and is replaced as a single blob on every write. -/
structure ConfigStore where
  characters : Option (List SavedOC)
deriving DecidableEq

/-- Classification of the synchronous I/O a model step performs: a read of
the key-value config store, a write of it, or an access to the relational
database.  Page updates are checked against this classification. -/
inductive Effect where
  | configRead
  | configWrite
  | dbAccess
deriving DecidableEq

/-- Message enum of the OC generator page (`OCPageMessage` in
`src/pages/mod.rs`). -/
inductive OCPageMessage where
  | LoadData
  | GenerateButtonClicked
  | SaveButtonClicked
  | DeleteCharacter (index : Nat)
deriving DecidableEq

instance exceptDecEq {ε α : Type} [DecidableEq ε] [DecidableEq α] :
    DecidableEq (Except ε α)
  | .ok a, .ok b =>
    if h : a = b then .isTrue (by rw [h])
    else .isFalse (by intro hc; cases hc; exact h rfl)
  | .ok _, .error _ => .isFalse (by intro hc; cases hc)
  | .error _, .ok _ => .isFalse (by intro hc; cases hc)
  | .error e, .error f =>
    if h : e = f then .isTrue (by rw [h])
    else .isFalse (by intro hc; cases hc; exact h rfl)

/-- Message enum of the project-manager page (`ProjectManagerPageMessage` in
`src/pages/mod.rs`); `anyhow::Error` payloads are rendered as strings. -/
inductive PMMessage where
  | LoadData
  | DataLoaded (result : Except String (List JoinRow))
  | ToggleCreateProject
  | CreateProject (name : String) (description : Option String)
  | DeleteProject (id : Int)
  | ProjectCreated (result : Except String Project)
  | CloseToast (id : Nat)
deriving DecidableEq

/-- State of the OC generator page (`src/pages/oc_generator.rs`). -/
structure OcGeneratorPage where
  oc_text : Option String
  saved_characters : List SavedOC
  is_loaded : Bool
deriving DecidableEq

/-- Environment a single OC page update runs in: the three random draws of
`generate` (`fastrand::usize`) and the wall-clock time read by
`SavedOC::new`. -/
structure OcEnv where
  rand : Nat × Nat × Nat
  now : Int
deriving DecidableEq

namespace OcGeneratorPage

/-- `Default for OcGeneratorPage`: no generated text, empty favorites,
`is_loaded` false. -/
def default : OcGeneratorPage :=
  { oc_text := none, saved_characters := [], is_loaded := false }

/-- Attribute word list of `generate_oc_attribute`; the `fl!` localization
macro is modelled as returning its key (string tables are out of scope). -/
def attributes : List String :=
  ["attribute-short", "attribute-tall", "attribute-fat", "attribute-nervous",
   "attribute-brave", "attribute-shy", "attribute-curious", "attribute-friendly",
   "attribute-aloof", "attribute-clever", "attribute-clumsy", "attribute-energetic",
   "attribute-sleepy", "attribute-grumpy", "attribute-optimistic",
   "attribute-pessimistic", "attribute-cunning", "attribute-kind",
   "attribute-sarcastic", "attribute-micro", "attribute-macro"]

/-- Species word list of `generate_oc_species`. -/
def speciesList : List String :=
  ["species-cat", "species-dog", "species-fox", "species-wolf", "species-rabbit",
   "species-horse", "species-dragon", "species-lion", "species-tiger",
   "species-deer", "species-bat", "species-snake"]

/-- Characteristic word list of `generate_characteristic`. -/
def characteristics : List String :=
  ["characteristic-mokawk", "characteristic-no-pants",
   "characteristic-constant-waffles", "characteristic-earrings",
   "characteristic-always-cape", "characteristic-tiny-squeak",
   "characteristic-overdramatic", "characteristic-secret-nerd",
   "characteristic-philosopher", "characteristic-sings-everything",
   "characteristic-hat-collection", "characteristic-uses-emoji",
   "characteristic-collects-bad-jokes", "characteristic-vore",
   "characteristic-ponytail", "characteristic-sparkle"]

/-- `OcGeneratorPage::generate`: concatenate one random pick from each word
list; `fastrand::usize(0..len)` is modelled as the draw modulo the list
length. -/
def generate (r : Nat × Nat × Nat) : String :=
  "A " ++ (attributes.getD (r.1 % attributes.length) "")
    ++ " " ++ (speciesList.getD (r.2.1 % speciesList.length) "")
    ++ " " ++ (characteristics.getD (r.2.2 % characteristics.length) "")

/-- `OcGeneratorPage::save_characters`: store the entire current list as the
single value of the `"characters"` key (whole-list replace). -/
def save_characters (page : OcGeneratorPage) (_store : ConfigStore) : ConfigStore :=
  { characters := some page.saved_characters }

/-- `OcGeneratorPage::load_characters`: read the `"characters"` key and
replace the in-memory list with its value; an absent key is a config error. -/
def load_characters (page : OcGeneratorPage) (store : ConfigStore) :
    Except String OcGeneratorPage :=
  match store.characters with
  | some cs => .ok { page with saved_characters := cs }
  | none => .error "configuration key characters does not exist"

/-- `OcGeneratorPage::delete_character_at_index`: `Vec::remove(index)` panics
when the index is out of range, otherwise removes the element and rewrites
the whole list to the config store. -/
def delete_character_at_index (page : OcGeneratorPage) (store : ConfigStore)
    (index : Nat) : Outcome (OcGeneratorPage × ConfigStore) :=
  if index < page.saved_characters.length then
    let page' : OcGeneratorPage :=
      { page with saved_characters := page.saved_characters.eraseIdx index }
    .ok (page', save_characters page' store)
  else
    .panic "removal index should be less than the length of the vector"

/-- `OcGeneratorPage::update`: the synchronous message handler.  It threads
the config-store state because `load_characters`, `save_characters` and
`delete_character_at_index` perform synchronous config I/O inside it; the
effects list records each such access.  The handler always returns
`Task::none()`, so no follow-up messages are produced. -/
def update (page : OcGeneratorPage) (store : ConfigStore) (msg : OCPageMessage)
    (env : OcEnv) : Outcome (OcGeneratorPage × ConfigStore × List Effect) :=
  match msg with
  | .LoadData =>
    if !page.is_loaded then
      match load_characters page store with
      | .ok page' => .ok (page', store, [.configRead])
      | .error _ => .ok (page, store, [.configRead])
    else
      .ok (page, store, [])
  | .GenerateButtonClicked =>
    .ok ({ page with oc_text := some (generate env.rand) }, store, [])
  | .SaveButtonClicked =>
    match page.oc_text with
    | some oc =>
      let page' : OcGeneratorPage :=
        { page with saved_characters := page.saved_characters ++ [SavedOC.new oc env.now] }
      .ok (page', save_characters page' store, [.configWrite])
    | none => .ok (page, store, [])
  | .DeleteCharacter index =>
    match delete_character_at_index page store index with
    | .ok (page', store') => .ok (page', store', [.configWrite])
    | .err _ =>
      match load_characters page store with
      | .ok page' => .ok (page', store, [.configWrite, .configRead])
      | .error _ => .ok (page, store, [.configWrite, .configRead])
    | .panic m => .panic m

end OcGeneratorPage

/-- State of the project-manager page (`src/pages/project_manager.rs`).  The
cosmic `Toasts` widget is modelled as the list of live toasts, each an id
paired with its text, plus the next fresh id. -/
structure ProjectManagerPage where
  projects : List JoinRow
  is_loading : Bool
  toasts : List (Nat × String)
  nextToastId : Nat
  error_message : Option String
deriving DecidableEq

namespace ProjectManagerPage

/-- `Default for ProjectManagerPage`: empty data, `is_loading` starts true. -/
def default : ProjectManagerPage :=
  { projects := [], is_loading := true, toasts := [], nextToastId := 0
    error_message := none }

/-- `Toasts::push(Toast::new(text))`: append a toast under a fresh id. -/
def pushToast (page : ProjectManagerPage) (text : String) : ProjectManagerPage :=
  { page with
      toasts := page.toasts ++ [(page.nextToastId, text)]
      nextToastId := page.nextToastId + 1 }

/-- `ProjectManagerPage::update`: the synchronous message handler.  It
returns the new page state, the follow-up page messages wrapped in returned
tasks (`Task::done`), and the I/O effects it performed (always none: this
handler only transitions UI state). -/
def update (page : ProjectManagerPage) (msg : PMMessage) :
    ProjectManagerPage × List PMMessage × List Effect :=
  match msg with
  | .LoadData =>
    ({ page with is_loading := true }, [], [])
  | .DataLoaded result =>
    let page := { page with is_loading := false }
    match result with
    | .ok projects => ({ page with projects := projects }, [], [])
    | .error e =>
      ({ page with error_message := some ("Failed to load projects: " ++ e) }, [], [])
  | .ProjectCreated result =>
    let page := { page with is_loading := false }
    match result with
    | .ok project =>
      (pushToast page ("project-created" ++ ": " ++ project.name), [.LoadData], [])
    | .error e =>
      (pushToast page ("error" ++ ": " ++ e), [], [])
  | .CreateProject _ _ =>
    ({ page with is_loading := true }, [], [])
  | .DeleteProject _ =>
    ({ page with is_loading := true }, [], [])
  | .ToggleCreateProject =>
    (page, [], [])
  | .CloseToast id =>
    ({ page with toasts := page.toasts.filter (fun t => t.1 ≠ id) }, [], [])

end ProjectManagerPage

/-- The three nav-bar pages (`enum Page` in `src/app.rs`). -/
inductive Page where
  | OCGenerator
  | ProjectManager
  | DiceRoller
deriving DecidableEq

/-- Top-level message enum (`enum Message` in `src/app.rs`); the successful
`DatabaseInitialized` payload is the ready storage handle. -/
inductive AppMessage where
  | OcGeneratorPage (m : OCPageMessage)
  | ProjectManagerPage (m : PMMessage)
  | DatabaseInitialized (result : Except String DbState)
  | OpenRepositoryUrl
  | SubscriptionChannel
  | ToggleContextPage
  | UpdateConfig
  | LaunchUrl (url : String)
deriving DecidableEq

/-- A scheduled cosmic `Task`: the window-title command, the one-shot async
database-initialization task of `init`, a `Task::done` that feeds an app
message back into the loop, or the async `Task::perform` that runs
`AppData::load_projects` and re-enters as `DataLoaded`. -/
inductive AppTask where
  | setWindowTitle
  | performDbInit
  | appMessage (m : AppMessage)
  | performLoadProjects
deriving DecidableEq

/-- The task is a page-specific data-load request: either a `LoadData` page
message re-entering the loop or the async load-projects operation itself. -/
def AppTask.isPageLoad : AppTask → Bool
  | .appMessage (.OcGeneratorPage .LoadData) => true
  | .appMessage (.ProjectManagerPage .LoadData) => true
  | .performLoadProjects => true
  | _ => false

/-- Dispatch-loop model state (`struct AppModel` in `src/app.rs`): the nav
model is reduced to the `Page` data of its active item, plus the context
drawer flag; the COSMIC core, key binds and persisted `Config` are UI chrome
outside the model. -/
structure AppModel where
  activePage : Option Page
  show_context : Bool
  app_data : AppData
  oc_generator_page : OcGeneratorPage
  project_manager_page : ProjectManagerPage
deriving DecidableEq

namespace AppModel

/-- `AppModel::load_page_data`: emit a `Task::done(LoadData)` for the active
page when it needs data; the dice roller and a missing nav entry schedule
nothing. -/
def load_page_data (app : AppModel) : List AppTask :=
  match app.activePage with
  | some .OCGenerator => [.appMessage (.OcGeneratorPage .LoadData)]
  | some .ProjectManager => [.appMessage (.ProjectManagerPage .LoadData)]
  | _ => []

/-- `AppModel::init`: the OC generator nav item is activated, the data layer
starts with no database, and the startup task batch is the window-title
command plus exactly one async database-initialization task; no page data is
loaded yet. -/
def init : AppModel × List AppTask :=
  ({ activePage := some .OCGenerator
     show_context := false
     app_data := AppData.new
     oc_generator_page := OcGeneratorPage.default
     project_manager_page := ProjectManagerPage.default },
   [.setWindowTitle, .performDbInit])

/-- `AppModel::on_nav_select`: activate the chosen nav item, then batch the
window-title command with `load_page_data` for the newly active page. -/
def on_nav_select (app : AppModel) (target : Page) : AppModel × List AppTask :=
  let app' : AppModel := { app with activePage := some target }
  (app', .setWindowTitle :: load_page_data app')

/-- `AppModel::handle_project_manager_message`: `LoadData` schedules the
async `AppData::load_projects` task; every other project-manager message is
delegated to the update method of the page, whose returned task is discarded (the arm
returns `Task::none()`). -/
def handle_project_manager_message (app : AppModel) (msg : PMMessage) :
    AppModel × List AppTask :=
  match msg with
  | .LoadData => (app, [.performLoadProjects])
  | _ =>
    let r := ProjectManagerPage.update app.project_manager_page msg
    ({ app with project_manager_page := r.1 }, [])

/-- Body of the async load task scheduled by
`handle_project_manager_message`: run `AppData::load_projects` against the
captured service clone and wrap the outcome in the result message of the page. -/
def runLoadProjectsTask (a : AppData) : Except String (List JoinRow) :=
  match AppData.load_projects a with
  | .ok rows => .ok rows
  | .err e => .error e
  | .panic m => .error m

/-- `AppModel::update`: the central synchronous dispatch step.  It threads
the config store because the OC page performs synchronous config I/O inside
its own `update`; it returns the tasks the loop schedules.  The OC page arm
discards the task returned by the page (`let _ = ...`); the repository-URL,
subscription, context-drawer and config variants touch no modelled data
state. -/
def update (app : AppModel) (store : ConfigStore) (msg : AppMessage) (env : OcEnv) :
    Outcome (AppModel × ConfigStore × List AppTask) :=
  match msg with
  | .DatabaseInitialized result =>
    match result with
    | .ok db =>
      let app' : AppModel := { app with app_data := AppData.set_database app.app_data db }
      .ok (app', store, load_page_data app')
    | .error _ => .ok (app, store, [])
  | .OcGeneratorPage m =>
    match OcGeneratorPage.update app.oc_generator_page store m env with
    | .ok (p', s', _) => .ok ({ app with oc_generator_page := p' }, s', [])
    | .err e => .err e
    | .panic m => .panic m
  | .ProjectManagerPage m =>
    let r := handle_project_manager_message app m
    .ok (r.1, store, r.2)
  | .ToggleContextPage =>
    .ok ({ app with show_context := !app.show_context }, store, [])
  | _ => .ok (app, store, [])

end AppModel

/-- Run a sequence of `create_project` calls against the store, threading the
updated handle (a failed call would leave the store as it was). -/
def createMany (db : DbState) : List (String × Option String) → DbState
  | [] => db
  | (n, d) :: rest =>
    match SqliteDatabase.create_project db n d with
    | .ok (_, db') => createMany db' rest
    | _ => db

/-- The project rows a run of `create_project` calls produces, starting from
row id `nextId` and store clock `t`. -/
def mkProjectsFrom (nextId t : Int) : List (String × Option String) → List Project
  | [] => []
  | (n, d) :: rest =>
    { id := nextId, name := n, description := d, created_at := t }
      :: mkProjectsFrom (nextId + 1) (t + 1) rest

theorem find?_append_of_forall_false {α : Type} (p : α → Bool) (l₁ l₂ : List α)
    (h : ∀ x ∈ l₁, p x = false) :
    (l₁ ++ l₂).find? p = l₂.find? p := by
  induction l₁ with
  | nil => rfl
  | cons x xs ih =>
    have hx : p x = false := h x (List.mem_cons_self x xs)
    simp only [List.cons_append, List.find?, hx]
    exact ih (fun z hz => h z (List.mem_cons_of_mem x hz))

theorem create_project_eq (db : DbState) (n : String) (d : Option String)
    (h : ∀ p ∈ db.projects, p.id ≠ db.nextProjectId) :
    SqliteDatabase.create_project db n d =
      .ok ({ id := db.nextProjectId, name := n, description := d, created_at := db.clock },
        { db with
            projects := db.projects ++
              [{ id := db.nextProjectId, name := n, description := d, created_at := db.clock }]
            nextProjectId := db.nextProjectId + 1
            clock := db.clock + 1 }) := by
  have hfind :
      List.find? (fun p => decide (p.id = db.nextProjectId))
          (db.projects ++
            [({ id := db.nextProjectId, name := n, description := d,
                created_at := db.clock } : Project)])
        = some { id := db.nextProjectId, name := n, description := d,
                 created_at := db.clock } := by
    rw [find?_append_of_forall_false _ _ _ (fun x hx => by
      simp only [decide_eq_false_iff_not]
      exact h x hx)]
    simp [List.find?]
  unfold SqliteDatabase.create_project
  simp only [hfind]

theorem createMany_eq (specs : List (String × Option String)) (db : DbState)
    (h : ∀ p ∈ db.projects, p.id < db.nextProjectId) :
    createMany db specs =
      { db with
          projects := db.projects ++ mkProjectsFrom db.nextProjectId db.clock specs
          nextProjectId := db.nextProjectId + specs.length
          clock := db.clock + specs.length } := by
  induction specs generalizing db with
  | nil =>
    cases db
    simp [createMany, mkProjectsFrom]
  | cons spec rest ih =>
    obtain ⟨n, d⟩ := spec
    obtain ⟨pr, tg, pt, ft, ni, ck⟩ := db
    simp only at h
    have hstep :
        createMany ⟨pr, tg, pt, ft, ni, ck⟩ ((n, d) :: rest)
          = createMany
              ⟨pr ++ [{ id := ni, name := n, description := d, created_at := ck }],
               tg, pt, ft, ni + 1, ck + 1⟩ rest := by
      simp [createMany,
        create_project_eq ⟨pr, tg, pt, ft, ni, ck⟩ n d (fun p hp => ne_of_lt (h p hp))]
    have hinv :
        ∀ p ∈ (⟨pr ++ [{ id := ni, name := n, description := d, created_at := ck }],
            tg, pt, ft, ni + 1, ck + 1⟩ : DbState).projects,
          p.id < (⟨pr ++ [{ id := ni, name := n, description := d, created_at := ck }],
            tg, pt, ft, ni + 1, ck + 1⟩ : DbState).nextProjectId := by
      intro p hp
      simp only at hp ⊢
      rcases List.mem_append.mp hp with hp | hp
      · exact lt_trans (h p hp) (lt_add_one _)
      · rcases List.mem_singleton.mp hp with rfl
        exact lt_add_one _
    rw [hstep, ih _ hinv]
    simp only [mkProjectsFrom, DbState.mk.injEq, List.append_assoc, List.cons_append,
      List.nil_append, List.length_cons, true_and, and_true]
    constructor <;> (push_cast; omega)

theorem mkProjectsFrom_mem_created_ge (specs : List (String × Option String)) :
    ∀ (i t : Int), ∀ p ∈ mkProjectsFrom i t specs, t ≤ p.created_at := by
  induction specs with
  | nil => intro i t p hp; simp [mkProjectsFrom] at hp
  | cons spec rest ih =>
    intro i t p hp
    obtain ⟨n, d⟩ := spec
    rcases List.mem_cons.mp hp with rfl | hp
    · simp
    · have := ih (i + 1) (t + 1) p hp
      omega

theorem mkProjectsFrom_pairwise_lt (specs : List (String × Option String)) :
    ∀ (i t : Int),
      (mkProjectsFrom i t specs).Pairwise (fun a b => a.created_at < b.created_at) := by
  induction specs with
  | nil => intro i t; simp [mkProjectsFrom]
  | cons spec rest ih =>
    intro i t
    obtain ⟨n, d⟩ := spec
    refine List.pairwise_cons.mpr ⟨?_, ih (i + 1) (t + 1)⟩
    intro p hp
    have := mkProjectsFrom_mem_created_ge rest (i + 1) (t + 1) p hp
    simp only
    omega

theorem eraseIdx_eq_take_append_drop {α : Type} :
    ∀ (l : List α) (k : Nat), l.eraseIdx k = l.take k ++ l.drop (k + 1)
  | [], _ => by simp [List.eraseIdx]
  | _ :: _, 0 => by simp [List.eraseIdx]
  | x :: xs, k + 1 => by
    simp only [List.eraseIdx, List.take, List.drop, List.cons_append]
    rw [eraseIdx_eq_take_append_drop xs k]

/-- Fold of the save flow: for each item, the generated text is placed in
`oc_text` (as `GenerateButtonClicked` leaves it) and `SaveButtonClicked` is
dispatched at the corresponding wall-clock time. -/
def appendSaves (p : OcGeneratorPage) (s : ConfigStore) :
    List (String × Int) → OcGeneratorPage × ConfigStore
  | [] => (p, s)
  | (text, now) :: rest =>
    match OcGeneratorPage.update { p with oc_text := some text } s
        .SaveButtonClicked { rand := (0, 0, 0), now := now } with
    | .ok (p', s', _) => appendSaves p' s' rest
    | _ => (p, s)

theorem appendSaves_spec (items : List (String × Int)) (p : OcGeneratorPage)
    (s : ConfigStore) :
    (appendSaves p s items).1.saved_characters
        = p.saved_characters ++ items.map (fun it => SavedOC.new it.1 it.2) ∧
      (items ≠ [] →
        (appendSaves p s items).2.characters
          = some (appendSaves p s items).1.saved_characters) := by
  induction items generalizing p s with
  | nil =>
    constructor
    · simp [appendSaves]
    · intro h; exact absurd rfl h
  | cons item rest ih =>
    obtain ⟨text, now⟩ := item
    have hstep :
        appendSaves p s ((text, now) :: rest)
          = appendSaves
              { p with oc_text := some text
                       saved_characters := p.saved_characters ++ [SavedOC.new text now] }
              { characters := some (p.saved_characters ++ [SavedOC.new text now]) }
              rest := by
      simp [appendSaves, OcGeneratorPage.update, OcGeneratorPage.save_characters]
    rw [hstep]
    rcases ih { p with oc_text := some text
                       saved_characters := p.saved_characters ++ [SavedOC.new text now] }
        { characters := some (p.saved_characters ++ [SavedOC.new text now]) } with ⟨h1, h2⟩
    constructor
    · simp only [h1, List.map_cons, List.append_assoc, List.cons_append, List.nil_append]
    · intro _
      cases rest with
      | nil => simp [appendSaves, h1]
      | cons r rs => exact h2 (by simp)

/-- Single-step frame fact: the OC page update never writes the `is_loaded`
flag (the Rust only ever reads it). -/
theorem oc_update_is_loaded (p : OcGeneratorPage) (s : ConfigStore)
    (m : OCPageMessage) (env : OcEnv) (p' : OcGeneratorPage) (s' : ConfigStore)
    (effs : List Effect)
    (h : OcGeneratorPage.update p s m env = .ok (p', s', effs)) :
    p'.is_loaded = p.is_loaded := by
  cases m with
  | LoadData =>
    cases hl : p.is_loaded with
    | true =>
      simp [OcGeneratorPage.update, hl] at h
      simp [← h.1, hl]
    | false =>
      cases hs : s.characters with
      | some cs =>
        simp [OcGeneratorPage.update, hl, OcGeneratorPage.load_characters, hs] at h
        simp [← h.1, hl]
      | none =>
        simp [OcGeneratorPage.update, hl, OcGeneratorPage.load_characters, hs] at h
        simp [← h.1, hl]
  | GenerateButtonClicked =>
    simp [OcGeneratorPage.update] at h
    simp [← h.1]
  | SaveButtonClicked =>
    cases ht : p.oc_text with
    | some oc =>
      simp [OcGeneratorPage.update, ht] at h
      simp [← h.1]
    | none =>
      simp [OcGeneratorPage.update, ht] at h
      simp [← h.1]
  | DeleteCharacter index =>
    by_cases hi : index < p.saved_characters.length
    · simp [OcGeneratorPage.update, OcGeneratorPage.delete_character_at_index, hi] at h
      simp [← h.1]
    · simp [OcGeneratorPage.update, OcGeneratorPage.delete_character_at_index, hi] at h

/-- Reachable OC page states: the `Default` state, closed under applying the
synchronous update to any message in any config store and environment. -/
inductive OcReachable : OcGeneratorPage → Prop where
  | base : OcReachable OcGeneratorPage.default
  | step {p p' : OcGeneratorPage} {s s' : ConfigStore} {m : OCPageMessage}
      {env : OcEnv} {effs : List Effect} :
      OcReachable p →
      OcGeneratorPage.update p s m env = .ok (p', s', effs) →
      OcReachable p'

/-- C2: when no storage handle is installed (the `db` option is `none`),
every Data-Access Service operation — `load_projects`, `create_project`,
`delete_project`, `create_tag`, `get_all_tags`, `add_tag_to_project`,
`add_feature`, `get_project_features` — returns the
`"Database not initialized"` error immediately, without blocking, queuing,
or performing any mutation (no operation produces a successor store
state). -/
theorem c2_not_initialized_all_ops (a : AppData) (h : a.db = none) :
    AppData.load_projects a = .err "Database not initialized" ∧
    (∀ n d, AppData.create_project a n d = .err "Database not initialized") ∧
    (∀ i, AppData.delete_project a i = .err "Database not initialized") ∧
    (∀ n, AppData.create_tag a n = .err "Database not initialized") ∧
    AppData.get_all_tags a = .err "Database not initialized" ∧
    (∀ pid tid, AppData.add_tag_to_project a pid tid = .err "Database not initialized") ∧
    (∀ pid d, AppData.add_feature a pid d = .err "Database not initialized") ∧
    (∀ pid, AppData.get_project_features a pid = .err "Database not initialized") := by
  obtain ⟨dbo⟩ := a
  simp only at h
  subst h
  exact ⟨rfl, fun _ _ => rfl, fun _ => rfl, fun _ => rfl, rfl,
    fun _ _ => rfl, fun _ _ => rfl, fun _ => rfl⟩

/-- Witness for C2 at the freshly constructed service `AppData::new`. -/
theorem c2_not_initialized_all_ops_witness :
    AppData.new.db = none ∧
    AppData.load_projects AppData.new = .err "Database not initialized" ∧
    AppData.create_project AppData.new "Alpha" none = .err "Database not initialized" := by
  refine ⟨rfl, (c2_not_initialized_all_ops AppData.new rfl).1,
    (c2_not_initialized_all_ops AppData.new rfl).2.1 "Alpha" none⟩

/-- C4 (code bug): when `ProjectCreated(Ok(project))` enters the dispatch
loop, the loop does route it to the project-manager page state container,
and the page hands back a `LoadData` follow-up task — but the catch-all arm
of `handle_project_manager_message` discards the task returned by the page
and returns `Task::none()`, so no reload is actually scheduled, contrary to
the claim. -/
theorem c4_project_created_reload_dropped :
    (AppModel.handle_project_manager_message AppModel.init.1
        (.ProjectCreated (.ok ⟨1, "Alpha", none, 0⟩))).2 = ([] : List AppTask) ∧
    (ProjectManagerPage.update AppModel.init.1.project_manager_page
        (.ProjectCreated (.ok ⟨1, "Alpha", none, 0⟩))).2.1 = [PMMessage.LoadData] ∧
    (AppModel.handle_project_manager_message AppModel.init.1
        (.ProjectCreated (.ok ⟨1, "Alpha", none, 0⟩))).1.project_manager_page
      = (ProjectManagerPage.update AppModel.init.1.project_manager_page
          (.ProjectCreated (.ok ⟨1, "Alpha", none, 0⟩))).1 := by
  exact ⟨rfl, rfl, rfl⟩

/-- C6 (code bug): error conditions do abort execution — `delete_project`
and `remove_feature` are `todo!()` placeholders that panic on every call
(hence on any absent id), and `DeleteCharacter` with an out-of-range index
panics inside `Vec::remove` instead of surfacing a not-found error value. -/
theorem c6_missing_row_panics :
    SqliteDatabase.delete_project (emptyDb 0) 1
      = .panic "not yet implemented: Implement delete_project" ∧
    SqliteDatabase.remove_feature (emptyDb 0) 1
      = .panic "not yet implemented: Implement remove_feature" ∧
    OcGeneratorPage.delete_character_at_index OcGeneratorPage.default
        { characters := none } 0
      = .panic "removal index should be less than the length of the vector" ∧
    OcGeneratorPage.update OcGeneratorPage.default { characters := none }
        (.DeleteCharacter 0) { rand := (0, 0, 0), now := 0 }
      = .panic "removal index should be less than the length of the vector" := by
  exact ⟨rfl, rfl, rfl, rfl⟩

/-- C9: a `DataLoaded` message carrying an error leaves the previously
loaded projects snapshot unchanged, only clears `is_loading` and sets
`error_message` to the formatted error text; and across all messages the
`projects` field changes only under a `DataLoaded` success. -/
theorem c9_data_loaded_error_frame (page : ProjectManagerPage) (e : String) :
    (ProjectManagerPage.update page (.DataLoaded (.error e))).1.projects
      = page.projects ∧
    (ProjectManagerPage.update page (.DataLoaded (.error e))).1.is_loading = false ∧
    (ProjectManagerPage.update page (.DataLoaded (.error e))).1.error_message
      = some ("Failed to load projects: " ++ e) ∧
    ∀ msg : PMMessage,
      (ProjectManagerPage.update page msg).1.projects = page.projects ∨
        ∃ ps, msg = .DataLoaded (.ok ps) := by
  refine ⟨rfl, rfl, rfl, ?_⟩
  intro msg
  cases msg with
  | LoadData => exact Or.inl rfl
  | DataLoaded r =>
    cases r with
    | ok ps => exact Or.inr ⟨ps, rfl⟩
    | error e2 => exact Or.inl rfl
  | ToggleCreateProject => exact Or.inl rfl
  | CreateProject n d => exact Or.inl rfl
  | DeleteProject i => exact Or.inl rfl
  | ProjectCreated r =>
    cases r with
    | ok p => exact Or.inl rfl
    | error e2 => exact Or.inl rfl
  | CloseToast i => exact Or.inl rfl

/-- C10: in every reachable OC generator page state `is_loaded` is false
(it starts false and no update path sets it), so the guard in the
`LoadData` handler never suppresses a reload: every `LoadData` message
re-reads the saved-characters list from the config store (one config read,
and the stored list, when present, replaces the in-memory one). -/
theorem c10_is_loaded_invariant (p : OcGeneratorPage) (h : OcReachable p) :
    p.is_loaded = false ∧
    ∀ (s : ConfigStore) (env : OcEnv),
      OcGeneratorPage.update p s .LoadData env
        = .ok ((match s.characters with
                | some cs => { p with saved_characters := cs }
                | none => p), s, [Effect.configRead]) := by
  have hload : p.is_loaded = false := by
    induction h with
    | base => rfl
    | step hr hu ih =>
      rw [oc_update_is_loaded _ _ _ _ _ _ _ hu]
      exact ih
  refine ⟨hload, ?_⟩
  intro s env
  cases hs : s.characters with
  | some cs =>
    simp [OcGeneratorPage.update, hload, OcGeneratorPage.load_characters, hs]
  | none =>
    simp [OcGeneratorPage.update, hload, OcGeneratorPage.load_characters, hs]

/-- Witness for C10 at the initial (default) page state. -/
theorem c10_is_loaded_invariant_witness :
    OcGeneratorPage.default.is_loaded = false ∧
    OcGeneratorPage.update OcGeneratorPage.default { characters := none } .LoadData
        { rand := (0, 0, 0), now := 0 }
      = .ok (OcGeneratorPage.default, { characters := none }, [Effect.configRead]) := by
  have h := c10_is_loaded_invariant OcGeneratorPage.default OcReachable.base
  exact ⟨h.1, h.2 { characters := none } { rand := (0, 0, 0), now := 0 }⟩

/-- C7 counterexample: the claim says a page update function performs no
storage or configuration I/O, but dispatching `LoadData` to the default OC
generator page performs a synchronous config-store read inside `update`
(the effects list is `[configRead]`, not empty). -/
theorem c7_page_update_io_counterexample :
    OcGeneratorPage.update OcGeneratorPage.default { characters := none } .LoadData
        { rand := (0, 0, 0), now := 0 }
      = .ok (OcGeneratorPage.default, { characters := none }, [Effect.configRead]) ∧
    [Effect.configRead] ≠ ([] : List Effect) := by
  exact ⟨rfl, by decide⟩

/-- C7 (amended): page update functions contain no suspension points and
never touch the relational store or the Data-Access Service — the only I/O
a page update performs is synchronous key-value config reads and writes by
the OC generator page, while the project-manager page update performs no
I/O at all and only transitions UI state, returning follow-up messages. -/
theorem c7_page_update_no_db_io (p : OcGeneratorPage) (s : ConfigStore)
    (m : OCPageMessage) (env : OcEnv) (p' : OcGeneratorPage) (s' : ConfigStore)
    (effs : List Effect)
    (h : OcGeneratorPage.update p s m env = .ok (p', s', effs)) :
    (∀ e ∈ effs, e = Effect.configRead ∨ e = Effect.configWrite) ∧
    ∀ (pm : ProjectManagerPage) (msg : PMMessage),
      (ProjectManagerPage.update pm msg).2.2 = [] := by
  constructor
  · intro e he
    cases m with
    | LoadData =>
      cases hl : p.is_loaded with
      | true =>
        simp [OcGeneratorPage.update, hl] at h
        obtain ⟨-, -, h3⟩ := h
        subst h3
        simp at he
      | false =>
        cases hs : s.characters with
        | some cs =>
          simp [OcGeneratorPage.update, hl, OcGeneratorPage.load_characters, hs] at h
          obtain ⟨-, -, h3⟩ := h
          subst h3
          simp at he
          exact Or.inl he
        | none =>
          simp [OcGeneratorPage.update, hl, OcGeneratorPage.load_characters, hs] at h
          obtain ⟨-, -, h3⟩ := h
          subst h3
          simp at he
          exact Or.inl he
    | GenerateButtonClicked =>
      simp [OcGeneratorPage.update] at h
      obtain ⟨-, -, h3⟩ := h
      subst h3
      simp at he
    | SaveButtonClicked =>
      cases ht : p.oc_text with
      | some oc =>
        simp [OcGeneratorPage.update, ht] at h
        obtain ⟨-, -, h3⟩ := h
        subst h3
        simp at he
        exact Or.inr he
      | none =>
        simp [OcGeneratorPage.update, ht] at h
        obtain ⟨-, -, h3⟩ := h
        subst h3
        simp at he
    | DeleteCharacter index =>
      by_cases hi : index < p.saved_characters.length
      · simp [OcGeneratorPage.update, OcGeneratorPage.delete_character_at_index, hi] at h
        obtain ⟨-, -, h3⟩ := h
        subst h3
        simp at he
        exact Or.inr he
      · simp [OcGeneratorPage.update, OcGeneratorPage.delete_character_at_index, hi] at h
  · intro pm msg
    cases msg with
    | LoadData => rfl
    | DataLoaded r => cases r <;> rfl
    | ToggleCreateProject => rfl
    | CreateProject n d => rfl
    | DeleteProject i => rfl
    | ProjectCreated r => cases r <;> rfl
    | CloseToast i => rfl

/-- Witness for C7 at the `LoadData` update of the default OC page. -/
theorem c7_page_update_no_db_io_witness :
    (Effect.configRead = Effect.configRead ∨ Effect.configRead = Effect.configWrite) ∧
    (ProjectManagerPage.update ProjectManagerPage.default PMMessage.LoadData).2.2
      = [] := by
  have h := c7_page_update_no_db_io OcGeneratorPage.default { characters := none }
    .LoadData { rand := (0, 0, 0), now := 0 } OcGeneratorPage.default
    { characters := none } [Effect.configRead] rfl
  exact ⟨h.1 Effect.configRead (by simp), h.2 ProjectManagerPage.default PMMessage.LoadData⟩

/-- C1 counterexample: from the startup state (no storage handle installed
yet), selecting the project-manager nav item already issues a page-specific
data-load request — `on_nav_select` unconditionally batches
`load_page_data`, and dispatching the resulting `LoadData` message schedules
the async `load_projects` task — contradicting the claim that a page switch
before initialization completes issues no load. -/
theorem c1_premature_load_counterexample :
    AppModel.init.1.app_data.db = none ∧
    (AppModel.on_nav_select AppModel.init.1 .ProjectManager).2
      = [.setWindowTitle, .appMessage (.ProjectManagerPage .LoadData)] ∧
    (AppModel.on_nav_select AppModel.init.1 .ProjectManager).2.countP
        AppTask.isPageLoad = 1 ∧
    AppModel.update (AppModel.on_nav_select AppModel.init.1 .ProjectManager).1
        { characters := none } (.ProjectManagerPage .LoadData)
        { rand := (0, 0, 0), now := 0 }
      = .ok ((AppModel.on_nav_select AppModel.init.1 .ProjectManager).1,
          { characters := none }, [.performLoadProjects]) := by
  exact ⟨rfl, rfl, rfl, rfl⟩

/-- C1 (amended): the startup task batch contains no page data load, but a
page switch always schedules exactly one load for the newly active page when
it requires data (none for the dice roller), regardless of whether
initialization has completed; a load-projects request issued while the
handle is absent is answered immediately by the Data-Access Service with the
not-initialized error and never reaches any storage engine. -/
theorem c1_load_gating_amended :
    AppModel.init.2.countP AppTask.isPageLoad = 0 ∧
    (∀ (app : AppModel) (target : Page),
      (AppModel.on_nav_select app target).2.countP AppTask.isPageLoad
        = if target = .DiceRoller then 0 else 1) ∧
    (∀ a : AppData, a.db = none →
      AppData.load_projects a = .err "Database not initialized") := by
  refine ⟨rfl, ?_, ?_⟩
  · intro app target
    cases target <;> rfl
  · intro a h
    obtain ⟨dbo⟩ := a
    simp only at h
    subst h
    rfl

/-- Witness for C1 at the startup state and the fresh service. -/
theorem c1_load_gating_amended_witness :
    (AppModel.on_nav_select AppModel.init.1 .OCGenerator).2.countP
        AppTask.isPageLoad = 1 ∧
    AppData.new.db = none ∧
    AppData.load_projects AppData.new = .err "Database not initialized" := by
  refine ⟨?_, rfl, c1_load_gating_amended.2.2 AppData.new rfl⟩
  have h := c1_load_gating_amended.2.1 AppModel.init.1 .OCGenerator
  simpa using h

/-- C3 counterexample: if the dice-roller page is active when the successful
initialization result arrives, the handle is installed but no data-load task
at all is scheduled — contradicting the claim that a data-load for the
currently active page is immediately scheduled on success. -/
theorem c3_success_load_counterexample :
    (AppModel.on_nav_select AppModel.init.1 .DiceRoller).1.activePage
      = some Page.DiceRoller ∧
    AppModel.update (AppModel.on_nav_select AppModel.init.1 .DiceRoller).1
        { characters := none } (.DatabaseInitialized (.ok (emptyDb 0)))
        { rand := (0, 0, 0), now := 0 }
      = .ok ({ (AppModel.on_nav_select AppModel.init.1 .DiceRoller).1 with
            app_data := { db := some (emptyDb 0) } },
          { characters := none }, ([] : List AppTask)) ∧
    ([] : List AppTask).countP AppTask.isPageLoad = 0 := by
  exact ⟨rfl, rfl, rfl⟩

/-- C3 (amended): startup schedules exactly one async storage-initialization
task and no page loads; on a successful result the handle is installed into
the Data-Access Service and a data-load is immediately scheduled for the
active page when it requires data (OC generator or project manager; none for
the dice roller or a missing nav entry); on failure the state is unchanged
and no task is scheduled, so the handle stays absent. -/
theorem c3_db_initialized_amended :
    AppModel.init.2.countP (fun t => t = AppTask.performDbInit) = 1 ∧
    AppModel.init.2.countP AppTask.isPageLoad = 0 ∧
    (∀ (app : AppModel) (store : ConfigStore) (db : DbState) (env : OcEnv),
      AppModel.update app store (.DatabaseInitialized (.ok db)) env
        = .ok ({ app with app_data := AppData.set_database app.app_data db }, store,
            AppModel.load_page_data
              { app with app_data := AppData.set_database app.app_data db })) ∧
    (∀ (app : AppModel) (db : DbState),
      ({ app with app_data := AppData.set_database app.app_data db } : AppModel).app_data.db
        = some db) ∧
    (∀ app : AppModel, app.activePage = some Page.OCGenerator →
      AppModel.load_page_data app = [.appMessage (.OcGeneratorPage .LoadData)]) ∧
    (∀ app : AppModel, app.activePage = some Page.ProjectManager →
      AppModel.load_page_data app = [.appMessage (.ProjectManagerPage .LoadData)]) ∧
    (∀ app : AppModel, app.activePage = some Page.DiceRoller →
      AppModel.load_page_data app = []) ∧
    (∀ (app : AppModel) (store : ConfigStore) (e : String) (env : OcEnv),
      AppModel.update app store (.DatabaseInitialized (.error e)) env
        = .ok (app, store, [])) := by
  refine ⟨rfl, rfl, ?_, ?_, ?_, ?_, ?_, ?_⟩
  · intro app store db env
    rfl
  · intro app db
    rfl
  · intro app h
    simp [AppModel.load_page_data, h]
  · intro app h
    simp [AppModel.load_page_data, h]
  · intro app h
    simp [AppModel.load_page_data, h]
  · intro app store e env
    rfl

/-- Witness for C3 at the startup state, whose active page is the OC
generator. -/
theorem c3_db_initialized_amended_witness :
    AppModel.update AppModel.init.1 { characters := none }
        (.DatabaseInitialized (.ok (emptyDb 0))) { rand := (0, 0, 0), now := 0 }
      = .ok ({ AppModel.init.1 with
            app_data := AppData.set_database AppModel.init.1.app_data (emptyDb 0) },
          { characters := none },
          [AppTask.appMessage (.OcGeneratorPage .LoadData)]) := by
  rw [c3_db_initialized_amended.2.2.1 AppModel.init.1 { characters := none }
    (emptyDb 0) { rand := (0, 0, 0), now := 0 }]
  rw [c3_db_initialized_amended.2.2.2.2.1 _ rfl]

/-- C5: `get_all_projects` returns `Ok` of all stored projects ordered by
creation time descending, each paired with its tags and features; the empty
store yields the empty sequence, not an error; and after a run of
`create_project` calls with distinct names on a fresh store it returns
exactly those projects, newest first, with empty tag and feature sets. -/
theorem c5_get_all_projects_spec :
    (∀ db : DbState, db.projects = [] →
      SqliteDatabase.get_all_projects db = .ok []) ∧
    (∀ db : DbState, ∃ rows : List JoinRow,
      SqliteDatabase.get_all_projects db = .ok rows ∧
      (rows.map Prod.fst).Perm db.projects ∧
      rows.Pairwise (fun a b => b.1.created_at ≤ a.1.created_at) ∧
      ∀ r ∈ rows, r.2.1 = SqliteDatabase.projectTagsOf db r.1.id ∧
        r.2.2 = SqliteDatabase.projectFeaturesOf db r.1.id) ∧
    (∀ (t : Int) (specs : List (String × Option String)),
      (specs.map Prod.fst).Nodup →
      SqliteDatabase.get_all_projects (createMany (emptyDb t) specs)
        = .ok ((mkProjectsFrom 1 t specs).reverse.map (fun p => (p, [], [])))) := by
  refine ⟨?_, ?_, ?_⟩
  · intro db h
    simp [SqliteDatabase.get_all_projects, h, sortDescBy]
  · intro db
    refine ⟨_, rfl, ?_, ?_, ?_⟩
    · rw [List.map_map, show (Prod.fst ∘ fun p : Project =>
          (p, SqliteDatabase.projectTagsOf db p.id,
            SqliteDatabase.projectFeaturesOf db p.id)) = id from rfl, List.map_id]
      exact perm_sortDescBy _ _
    · rw [List.pairwise_map]
      exact sorted_sortDescBy _ _
    · intro r hr
      obtain ⟨p, hp, rfl⟩ := List.mem_map.mp hr
      exact ⟨rfl, rfl⟩
  · intro t specs hnd
    rw [createMany_eq specs (emptyDb t) (by intro p hp; simp [emptyDb] at hp)]
    simp only [SqliteDatabase.get_all_projects, emptyDb, List.nil_append]
    rw [sortDescBy_of_pairwise_lt _ _ (mkProjectsFrom_pairwise_lt specs 1 t)]
    simp [SqliteDatabase.projectTagsOf, SqliteDatabase.projectFeaturesOf, sortDescBy]

/-- Witness for C5 on the empty store and a two-project creation run. -/
theorem c5_get_all_projects_spec_witness :
    SqliteDatabase.get_all_projects (emptyDb 0) = .ok [] ∧
    SqliteDatabase.get_all_projects
        (createMany (emptyDb 5) [("Alpha", none), ("Beta", some "b")])
      = .ok ((mkProjectsFrom 1 5 [("Alpha", none), ("Beta", some "b")]).reverse.map
          (fun p => (p, [], []))) := by
  exact ⟨c5_get_all_projects_spec.1 (emptyDb 0) rfl,
    c5_get_all_projects_spec.2.2 5 [("Alpha", none), ("Beta", some "b")] (by decide)⟩

/-- C8: appending N saved characters through the save flow and then
reloading from the config store yields the same N artifacts in the same
order (appended after whatever was already in memory); deleting index k of
an in-range list yields a list one shorter with the remaining elements in
their original relative order, the whole list being rewritten to the store
as a single value. -/
theorem c8_saved_roundtrip :
    (∀ (p : OcGeneratorPage) (s : ConfigStore) (items : List (String × Int))
       (q : OcGeneratorPage), items ≠ [] →
      (appendSaves p s items).1.saved_characters
        = p.saved_characters ++ items.map (fun it => SavedOC.new it.1 it.2) ∧
      OcGeneratorPage.load_characters q (appendSaves p s items).2
        = .ok { q with saved_characters :=
            p.saved_characters ++ items.map (fun it => SavedOC.new it.1 it.2) }) ∧
    (∀ (page : OcGeneratorPage) (store : ConfigStore) (k : Nat),
      k < page.saved_characters.length →
      OcGeneratorPage.delete_character_at_index page store k
        = .ok ({ page with saved_characters :=
              page.saved_characters.take k ++ page.saved_characters.drop (k + 1) },
            { characters := some (page.saved_characters.take k
              ++ page.saved_characters.drop (k + 1)) }) ∧
      (page.saved_characters.take k ++ page.saved_characters.drop (k + 1)).length
        = page.saved_characters.length - 1) := by
  constructor
  · intro p s items q hne
    obtain ⟨h1, h2⟩ := appendSaves_spec items p s
    have h3 := h2 hne
    refine ⟨h1, ?_⟩
    simp [OcGeneratorPage.load_characters, h3, h1]
  · intro page store k hk
    constructor
    · simp [OcGeneratorPage.delete_character_at_index, hk,
        OcGeneratorPage.save_characters, eraseIdx_eq_take_append_drop]
    · simp only [List.length_append, List.length_take, List.length_drop]
      omega

/-- Witness for C8: one append plus reload, and one in-range delete. -/
theorem c8_saved_roundtrip_witness :
    (appendSaves OcGeneratorPage.default { characters := none }
        [("fox", 3)]).1.saved_characters = [SavedOC.new "fox" 3] ∧
    OcGeneratorPage.load_characters OcGeneratorPage.default
        (appendSaves OcGeneratorPage.default { characters := none } [("fox", 3)]).2
      = .ok { OcGeneratorPage.default with saved_characters := [SavedOC.new "fox" 3] } ∧
    OcGeneratorPage.delete_character_at_index
        ⟨none, [SavedOC.new "a" 0, SavedOC.new "b" 1], false⟩ { characters := none } 0
      = .ok (⟨none, [SavedOC.new "b" 1], false⟩, { characters := some [SavedOC.new "b" 1] }) ∧
    ([SavedOC.new "b" 1] : List SavedOC).length = 1 := by
  have h1 := c8_saved_roundtrip.1 OcGeneratorPage.default { characters := none }
    [("fox", 3)] OcGeneratorPage.default (by simp)
  have h2 := c8_saved_roundtrip.2
    ⟨none, [SavedOC.new "a" 0, SavedOC.new "b" 1], false⟩ { characters := none } 0 (by simp)
  exact ⟨h1.1, h1.2, h2.1, h2.2⟩

end CosmiKit
